import Mathlib

/-!
# Exercise tracker microservice: validator and data access

A shallow embedding of `src/validator.js` and of the data-access operations of
`src/storage.js`, together with the properties of the specification that concern them.

JavaScript strings are sequences of UTF-16 code units, numbers are either `NaN`, an
infinity or a finite value, and a function that can throw returns in `Except`.
-/

namespace ExerciseTracker

/-! ## JavaScript values -/

/-- A JavaScript string: its sequence of UTF-16 code units. `s.length` of the source is the
length of this list. -/
abbrev JSString := List Nat

/-- The UTF-16 code units of one Unicode scalar value. -/
def utf16 (c : Char) : List Nat :=
  if c.toNat < 0x10000 then [c.toNat]
  else [0xD800 + (c.toNat - 0x10000) / 0x400, 0xDC00 + (c.toNat - 0x10000) % 0x400]

/-- The JavaScript string written by a literal. -/
def js (s : String) : JSString := s.toList.flatMap utf16

/-- A JavaScript number, as far as the source observes it: `NaN`, an infinity, or a finite
value (given by its exact value; `-0` and `0` are not told apart by `>` and `isNaN`). -/
inductive JSNumber where
  | nan : JSNumber
  | infinity (negative : Bool) : JSNumber
  | finite (q : ℚ) : JSNumber
  deriving DecidableEq

/-- The test `Number.isNaN(n)`. -/
def JSNumber.isNaN : JSNumber → Bool
  | .nan => true
  | _ => false

/-- The comparison `n > 0`. -/
def JSNumber.gtZero : JSNumber → Bool
  | .nan => false
  | .infinity negative => !negative
  | .finite q => decide (0 < q)

/-- The errors that the embedded code can throw. -/
inductive JSError where
  | typeError : JSError
  | rangeError : JSError
  | castError : JSError
  | validationError : JSError
  | userNotFound : JSError
  deriving DecidableEq

/-! ## Regular expressions

The two patterns of `validator.js` are sequences of assertions and of quantified character
classes (a literal character is the class of that one character, quantified `{1}`). -/

/-- A character class: a list of inclusive ranges of code units. -/
abbrev CharClass := List (Nat × Nat)

/-- Membership of a code unit in a character class. -/
def CharClass.test (cls : CharClass) (c : Nat) : Bool :=
  cls.any (fun r => decide (r.1 ≤ c) && decide (c ≤ r.2))

/-- One term of a pattern. -/
inductive Term where
  | assertStart : Term
  | assertEnd : Term
  | atom (cls : CharClass) (min : Nat) (max : Option Nat) : Term

/-- Every way to match `cls{min,max}` at position `pos`, where `rest` is the input from `pos`
on: the positions after the match, each with the input that remains, the longest match first. -/
def repEnds (cls : CharClass) : Nat → Option Nat → Nat → List Nat → List (Nat × List Nat)
  | min, _, pos, [] => if min = 0 then [(pos, [])] else []
  | min, max, pos, c :: cs =>
    (if cls.test c && (max != some 0) then
        repEnds cls (min - 1) (max.map (fun m => m - 1)) (pos + 1) cs
      else []) ++
    (if min = 0 then [(pos, c :: cs)] else [])

/-- Every way to match one term at position `pos`. -/
def termEnds : Term → Nat → List Nat → List (Nat × List Nat)
  | .assertStart, pos, rest => if pos = 0 then [(pos, rest)] else []
  | .assertEnd, pos, rest => if rest.isEmpty then [(pos, rest)] else []
  | .atom cls min max, pos, rest => repEnds cls min max pos rest

/-- Backtracking match of a pattern at position `pos`. -/
def matchHere : List Term → Nat → List Nat → Bool
  | [], _, _ => true
  | t :: ts, pos, rest => (termEnds t pos rest).any (fun e => matchHere ts e.1 e.2)

/-- The method `test` of a freshly created pattern (`lastIndex` is 0): the pattern is tried at
every position of the input, from the left. -/
def regExpTest (pattern : List Term) (input : JSString) : Bool :=
  (List.range (input.length + 1)).any (fun i => matchHere pattern i (input.drop i))

/-! ## `validator.js` -/

/-- The class `[0-9]`. -/
def digitClass : CharClass := [(48, 57)]

/-- The class of the one character `-`. -/
def dashClass : CharClass := [(45, 45)]

/-- The pattern `/^[0-9]{4}-[0-9]{2}-[0-9]{2}$/g`. -/
def patternValidDate : List Term :=
  [.assertStart, .atom digitClass 4 (some 4), .atom dashClass 1 (some 1),
   .atom digitClass 2 (some 2), .atom dashClass 1 (some 1), .atom digitClass 2 (some 2),
   .assertEnd]

/-- Validate date format (syntactic check only). -/
def isDateValid (date : JSString) : Bool :=
  if regExpTest patternValidDate date then true else false

/-- Validate number. -/
def isNumberValid (number : JSNumber) : Bool :=
  if !number.isNaN then true else false

/-- Validate userId format. Reading `length` of `null` or `undefined` throws. -/
def isUserIdValid (userId : Option JSString) : Except JSError Bool :=
  match userId with
  | none => .error .typeError
  | some s => .ok (if s.length = 24 then true else false)

/-- The pattern `/^[a-zA-Z0-9_\.\-]{8,}$/g`. -/
def patternValidCharacters : List Term :=
  [.assertStart,
   .atom [(97, 122), (65, 90), (48, 57), (95, 95), (46, 46), (45, 45)] 8 none,
   .assertEnd]

/-- Validate username format. -/
def isUsernameValid (username : JSString) : Bool :=
  regExpTest patternValidCharacters username

/-- The parameters of an exercise. A field that is `null` or `undefined` is `none`. -/
structure ExerciseParams where
  date : Option JSString
  description : Option JSString
  duration : JSNumber
  userId : Option JSString

/-- Validate exercise parameters format. The four checks are evaluated in the order of the
source, before they are combined. -/
def areExerciseParamsValid (params : ExerciseParams) : Except JSError Bool := do
  let isExerciseDateValid :=
    match params.date with
    | none => true
    | some date => isDateValid date
  let isExerciseDescriptionValid :=
    match params.description with
    | none => false
    | some description => decide (description.length > 0)
  let isExerciseDurationValid :=
    isNumberValid params.duration && params.duration.gtZero
  let isExerciseUserIdValid ← isUserIdValid params.userId
  return isExerciseDateValid && isExerciseDescriptionValid && isExerciseDurationValid &&
    isExerciseUserIdValid

/-- The parameters of a log query. A field that is `null` or `undefined` is `none`. -/
structure LogParams where
  dateFrom : Option JSString
  dateTo : Option JSString
  limit : Option JSNumber
  userId : Option JSString

/-- Validate log parameters format. -/
def areLogParamsValid (params : LogParams) : Except JSError Bool := do
  let isLogDateFromValid :=
    match params.dateFrom with
    | none => true
    | some dateFrom => isDateValid dateFrom
  let isLogDateToValid :=
    match params.dateTo with
    | none => true
    | some dateTo => isDateValid dateTo
  let isLogLimitValid :=
    match params.limit with
    | none => true
    | some limit => isNumberValid limit
  let isLogUserIdValid ← isUserIdValid params.userId
  return isLogDateFromValid && isLogDateToValid && isLogLimitValid && isLogUserIdValid

/-! ## The built-ins `Date` and `Intl.DateTimeFormat`

These belong to the JavaScript runtime (Node.js, that is V8 with ICU), not to the repository;
they are embedded as far as `storage.js` calls them. A `Date` object is its time value:
`some t`, the milliseconds since 1970-01-01T00:00:00Z, or `none` for an invalid date (time
value `NaN`). Dates are those of the proleptic Gregorian calendar. -/

/-- Milliseconds in a day. -/
def msPerDay : Int := 86400000

/-- The day number (days since 1970-01-01) of the civil date `y`-`m`-`d`, `m` from 1 to 12:
the operation `MakeDay` of ECMAScript. A day `d` past the end of the month runs into the
following month. -/
def daysFromCivil (y m d : Int) : Int :=
  let y1 := if m ≤ 2 then y - 1 else y
  let era := y1 / 400
  let yoe := y1 - era * 400
  let mp := if m > 2 then m - 3 else m + 9
  let doy := (153 * mp + 2) / 5 + d - 1
  let doe := yoe * 365 + yoe / 4 - yoe / 100 + doy
  era * 146097 + doe - 719468

/-- The civil date (year, month from 1 to 12, day of the month) of a day number: the
operations `YearFromTime`, `MonthFromTime` and `DateFromTime` of ECMAScript. -/
def civilFromDays (z : Int) : Int × Int × Int :=
  let z1 := z + 719468
  let era := z1 / 146097
  let doe := z1 - era * 146097
  let yoe := (doe - doe / 1460 + doe / 36524 - doe / 146096) / 365
  let doy := doe - (365 * yoe + yoe / 4 - yoe / 100)
  let mp := (5 * doy + 2) / 153
  let d := doy - (153 * mp + 2) / 5 + 1
  let m := if mp < 10 then mp + 3 else mp - 9
  let y := yoe + era * 400
  (if m ≤ 2 then y + 1 else y, m, d)

/-- The day of the week of a day number, 0 for Sunday: the operation `WeekDay` of
ECMAScript. -/
def weekDay (day : Int) : Int := (day + 4) % 7

/-- The decimal digits of `n`, padded with zeros to `width` digits (the low `width` digits). -/
def padDigits (width : Nat) (n : Nat) : JSString :=
  (List.range width).reverse.map (fun i => 48 + n / 10 ^ i % 10)

/-- The decimal digits of `n`, without padding. -/
def decimal (n : Nat) : JSString := (Nat.toDigits 10 n).map Char.toNat

/-- The number written by a sequence of decimal digits. -/
def digitsValue (ds : List Nat) : Int := ds.foldl (fun acc c => acc * 10 + ((c : Int) - 48)) 0

/-- A stored user. -/
structure User where
  _id : JSString
  username : JSString
  deriving DecidableEq

/-- A stored exercise; `date` is the time value of its date, or `none` when the stored date is
`null` (the schema does not require the date). -/
structure Exercise where
  date : Option Int
  description : JSString
  duration : JSNumber
  userId : JSString
  deriving DecidableEq

/-- The behaviour of the runtime, of the document store and of its driver that the source
relies on and does not determine. -/
structure Env where
  /-- The test `mongoose.Types.ObjectId.isValid` on a string. -/
  objectIdIsValid : JSString → Bool
  /-- The identifier that a string is cast to when it is looked up as `_id`. -/
  castObjectId : JSString → JSString
  /-- The time value of `new Date(s)` for a string `s` that is not of the form YYYY-MM-DD. -/
  otherDateParse : JSString → Option Int
  /-- The time value of the date that mongoose casts a string to, for a string that is neither
  empty nor of the form YYYY-MM-DD (it goes through `Number` or through `new Date`); `none`
  when that cast fails. -/
  castOtherDate : JSString → Option Int
  /-- The time value of `new Date()`: the current time. -/
  now : Int
  /-- The offset from UTC, in milliseconds, of the time zone of the process at a given time. -/
  localOffset : Int → Int
  /-- The documents returned by a cursor limited to a positive number that is not an
  integer. -/
  limitNonInteger : JSNumber → List Exercise → List Exercise

/-- The time value of `new Date(s)`. A string of the form YYYY-MM-DD is a date-only form: it
denotes midnight UTC of that day when the month is from 01 to 12 and the day from 01 to 31
(V8 does not compare the day with the length of the month), and is invalid otherwise. -/
def dateParse (env : Env) (s : JSString) : Option Int :=
  if isDateValid s then
    let year := digitsValue (s.take 4)
    let month := digitsValue ((s.drop 5).take 2)
    let day := digitsValue ((s.drop 8).take 2)
    if 1 ≤ month ∧ month ≤ 12 ∧ 1 ≤ day ∧ day ≤ 31 then
      some (daysFromCivil year month day * msPerDay)
    else none
  else env.otherDateParse s

/-- The method `toISOString` of a date: `YYYY-MM-DDTHH:mm:ss.sssZ` in UTC, with a sign and six
digits for a year outside 0 to 9999. It throws a `RangeError` on an invalid date. -/
def toISOString (date : Option Int) : Except JSError JSString :=
  match date with
  | none => .error .rangeError
  | some t =>
    let (y, m, d) := civilFromDays (t / msPerDay)
    let ms := (t % msPerDay).toNat
    let year :=
      if 0 ≤ y ∧ y ≤ 9999 then padDigits 4 y.toNat
      else (if y < 0 then 45 else 43) :: padDigits 6 y.natAbs
    .ok (year ++ [45] ++ padDigits 2 m.toNat ++ [45] ++ padDigits 2 d.toNat ++ [84] ++
      padDigits 2 (ms / 3600000) ++ [58] ++ padDigits 2 (ms / 60000 % 60) ++ [58] ++
      padDigits 2 (ms / 1000 % 60) ++ [46] ++ padDigits 3 (ms % 1000) ++ [90])

/-- The short English names of the days of the week, from Sunday. -/
def weekdayShort : List String := ["Sun", "Mon", "Tue", "Wed", "Thu", "Fri", "Sat"]

/-- The short English names of the months. -/
def monthShort : List String :=
  ["Jan", "Feb", "Mar", "Apr", "May", "Jun", "Jul", "Aug", "Sep", "Oct", "Nov", "Dec"]

/-- The result of `new Intl.DateTimeFormat("en", options).format(date)` for the options
`day: "2-digit", month: "short", weekday: "short", year: "numeric"`, such as
`Sun, Feb 28, 2021`. No time zone is among the options: the date is rendered in the time zone
of the process. -/
def intlFormat (env : Env) (t : Int) : JSString :=
  let day := (t + env.localOffset t) / msPerDay
  let (y, m, d) := civilFromDays day
  let yearOfEra := if 0 < y then y.toNat else (1 - y).toNat
  js (weekdayShort.getD (weekDay day).toNat "") ++ js ", " ++
    js (monthShort.getD (m - 1).toNat "") ++ js " " ++ padDigits 2 d.toNat ++ js ", " ++
    decimal yearOfEra

/-! ## `storage.js` -/

/-- Format required by test suite: Sun Feb 28 2021. The commas are removed by
`replace(/,/g, "")`. A stored date that is `null` is formatted as the number 0. -/
def formatDate (env : Env) (dbDate : Option Int) : JSString :=
  (intlFormat env (dbDate.getD 0)).filter (fun c => c != 44)

/-- Return the date in format yyyy-mm-dd: the first ten code units of `toISOString`. -/
def prepareDate (env : Env) (paramDate : Option JSString) :
    Except JSError JSString :=
  let date :=
    match paramDate with
    | none => some env.now
    | some s => dateParse env s
  (toISOString date).map (fun iso => iso.take 10)

/-- The document store: its two collections, each in storage order. -/
structure State where
  users : List User
  exercises : List Exercise

/-- The value returned by `exercises.create`. -/
structure ExerciseResult where
  _id : JSString
  date : JSString
  description : JSString
  duration : JSNumber
  username : JSString
  deriving DecidableEq

/-- One entry of a log. -/
structure LogEntry where
  date : JSString
  description : JSString
  duration : JSNumber
  deriving DecidableEq

/-- The value returned by `exercises.log`. -/
structure LogResult where
  _id : JSString
  count : Nat
  log : List LogEntry
  username : JSString
  deriving DecidableEq

/-- The query `users.get({ _id: userId })`. -/
def usersGet (env : Env) (st : State) (userId : JSString) : List User :=
  st.users.filter (fun u => u._id == env.castObjectId userId)

/-- Cast of a string to the schema type `Date` by mongoose: the empty string is cast to
`null`, a string of the form YYYY-MM-DD (which `Number` does not read) to `new Date(s)`, and
the cast fails on an invalid date. -/
def castDate (env : Env) (s : JSString) : Except JSError (Option Int) :=
  if s.isEmpty then .ok none
  else
    match (if isDateValid s then dateParse env s else env.castOtherDate s) with
    | none => .error .castError
    | some t => .ok (some t)

/-- The method `save` of a new exercise: the document is validated against the schema
(`date` is cast to a `Date`, or to `null` when it is empty; `description` and `duration` are
required) and appended to the collection. -/
def exerciseSave (env : Env) (st : State) (date : JSString)
    (description : Option JSString) (duration : JSNumber) (userId : JSString) :
    Except JSError Exercise × State :=
  match castDate env date, description with
  | .ok t, some d =>
    if d.length = 0 ∨ duration.isNaN = true then (.error .validationError, st)
    else
      let exercise : Exercise :=
        { date := t, description := d, duration := duration, userId := userId }
      (.ok exercise, { st with exercises := st.exercises ++ [exercise] })
  | _, _ => (.error .validationError, st)

/-- The operation `exercises.create`: its result or the error it throws, and the store
afterwards. -/
def create (env : Env) (st : State) (params : ExerciseParams) :
    Except JSError ExerciseResult × State :=
  match params.userId with
  | none => (.error .userNotFound, st)
  | some userId =>
    if env.objectIdIsValid userId = true then
      match (usersGet env st userId).head? with
      | some user =>
        match prepareDate env params.date with
        | .error e => (.error e, st)
        | .ok date =>
          match exerciseSave env st date params.description params.duration userId with
          | (.error e, st1) => (.error e, st1)
          | (.ok exerciseSaved, st1) =>
            (.ok { _id := userId
                   date := formatDate env exerciseSaved.date
                   description := exerciseSaved.description
                   duration := exerciseSaved.duration
                   username := user.username }, st1)
      | none => (.error .userNotFound, st)
    else (.error .userNotFound, st)

/-- Cast of an optional bound of the date filter: `none` when the filter has no such bound,
`some none` for a bound cast to `null`, `some (some t)` for a bound cast to a date. -/
def castBound (env : Env) (bound : Option JSString) :
    Except JSError (Option (Option Int)) :=
  match bound with
  | none => .ok none
  | some s => (castDate env s).map some

/-- The comparison of a stored date with a bound of the filter by the store, `below` telling
whether the bound is the lower one (`$gte`) or the upper one (`$lte`): a date is compared with
a date, and `null` is matched by `null` only. -/
def boundHolds (below : Bool) (bound : Option (Option Int)) (date : Option Int) : Bool :=
  match bound, date with
  | none, _ => true
  | some none, none => true
  | some none, some _ => false
  | some (some _), none => false
  | some (some t), some d => if below then decide (t ≤ d) else decide (d ≤ t)

/-- The filter `paramsQuery` of the log: the user, and the bounds on the date that are
present. -/
def paramsQuery (userId : JSString) (gte lte : Option (Option Int)) (e : Exercise) : Bool :=
  e.userId == userId && boundHolds true gte e.date && boundHolds false lte e.date

/-- The method `limit` of a query: at most `n` documents, the first ones. -/
def queryLimit (env : Env) (n : JSNumber) (docs : List Exercise) : List Exercise :=
  match n with
  | .finite q => if q.den = 1 then docs.take q.num.toNat else env.limitNonInteger n docs
  | _ => env.limitNonInteger n docs

/-- The operation `exercises.log`. The parameters always have the key `userId`. -/
def log (env : Env) (st : State) (params : LogParams) : Except JSError LogResult :=
  match params.userId with
  | none => .error .userNotFound
  | some userId =>
    if env.objectIdIsValid userId = true then
      match (usersGet env st userId).head? with
      | some user => do
        let gte ← castBound env params.dateFrom
        let lte ← castBound env params.dateTo
        let found := st.exercises.filter (paramsQuery userId gte lte)
        let exercises :=
          match params.limit with
          | none => found
          | some limit => if limit.gtZero then queryLimit env limit found else found
        return { _id := user._id
                 count := exercises.length
                 log := exercises.map (fun item =>
                   { date := formatDate env item.date
                     description := item.description
                     duration := item.duration })
                 username := user.username }
      | none => .error .userNotFound
    else .error .userNotFound

/-! ## Vocabulary of the specification -/

/-- An ASCII digit. -/
def IsDigit (c : Nat) : Prop := 48 ≤ c ∧ c ≤ 57

/-- Specification of the form YYYY-MM-DD: exactly four digits, `-`, two digits, `-`, two
digits. -/
def MatchesYMD (s : JSString) : Prop :=
  ∃ y1 y2 y3 y4 m1 m2 d1 d2 : Nat,
    IsDigit y1 ∧ IsDigit y2 ∧ IsDigit y3 ∧ IsDigit y4 ∧ IsDigit m1 ∧ IsDigit m2 ∧
    IsDigit d1 ∧ IsDigit d2 ∧ s = [y1, y2, y3, y4, 45, m1, m2, 45, d1, d2]

/-- Specification of the characters of a username: an ASCII letter, an ASCII digit, `_`, `.`
or `-`. -/
def IsUsernameChar (c : Nat) : Prop :=
  (97 ≤ c ∧ c ≤ 122) ∨ (65 ≤ c ∧ c ≤ 90) ∨ IsDigit c ∨ c = 95 ∨ c = 46 ∨ c = 45

/-- Specification of a number greater than zero: positive infinity or a positive finite
value. -/
def JSNumber.IsPositive (n : JSNumber) : Prop :=
  n = .infinity false ∨ ∃ q : ℚ, n = .finite q ∧ 0 < q

/-- A calendar date: a year, a month and a day of the month. -/
structure CalendarDate where
  year : Nat
  month : Nat
  day : Nat

/-- Specification of a leap year of the Gregorian calendar. -/
def IsLeapYear (y : Int) : Prop := y % 4 = 0 ∧ (y % 100 ≠ 0 ∨ y % 400 = 0)

instance (y : Int) : Decidable (IsLeapYear y) := by
  unfold IsLeapYear
  infer_instance

/-- Specification of the number of days of a month. -/
def daysInMonth (y : Int) (m : Nat) : Nat :=
  if m = 2 then (if IsLeapYear y then 29 else 28)
  else if m = 4 ∨ m = 6 ∨ m = 9 ∨ m = 11 then 30
  else 31

/-- Specification of a real calendar date with a year of four digits: the month is from 1 to
12 and the day from 1 to the length of the month. -/
def CalendarDate.IsReal (c : CalendarDate) : Prop :=
  c.year ≤ 9999 ∧ 1 ≤ c.month ∧ c.month ≤ 12 ∧ 1 ≤ c.day ∧ c.day ≤ daysInMonth c.year c.month

instance (c : CalendarDate) : Decidable c.IsReal := by
  unfold CalendarDate.IsReal
  infer_instance

/-- The string YYYY-MM-DD that writes a calendar date. -/
def CalendarDate.iso (c : CalendarDate) : JSString :=
  [48 + c.year / 1000 % 10, 48 + c.year / 100 % 10, 48 + c.year / 10 % 10, 48 + c.year % 10,
   45, 48 + c.month / 10 % 10, 48 + c.month % 10, 45, 48 + c.day / 10 % 10, 48 + c.day % 10]

/-- Specification of the number of days from 1970-01-01 to the first day of a year. -/
def dayFromYear (y : Int) : Int :=
  365 * (y - 1970) + (y - 1969) / 4 - (y - 1901) / 100 + (y - 1601) / 400

/-- Specification of the number of days of a year that precede a month. -/
def daysBeforeMonth (y : Int) (m : Nat) : Int :=
  ((List.range (m - 1)).map (fun i => (daysInMonth y (i + 1) : Int))).sum

/-- Specification of the time value of a calendar date: the milliseconds from
1970-01-01T00:00:00Z to midnight UTC of that day. -/
def CalendarDate.utcMidnight (c : CalendarDate) : Int :=
  (dayFromYear c.year + daysBeforeMonth c.year c.month + (c.day - 1)) * 86400000

/-- Specification of the records selected by a log query: those of the user whose date is
not before `dateFrom` and not after `dateTo`, for each bound that is present. -/
def LogSelects (userId : JSString) (dateFrom dateTo : Option CalendarDate) (e : Exercise) :
    Prop :=
  e.userId = userId ∧ (∀ c ∈ dateFrom, ∃ d ∈ e.date, c.utcMidnight ≤ d) ∧
    (∀ c ∈ dateTo, ∃ d ∈ e.date, d ≤ c.utcMidnight)

instance (userId : JSString) (dateFrom dateTo : Option CalendarDate) (e : Exercise) :
    Decidable (LogSelects userId dateFrom dateTo e) := by
  unfold LogSelects
  infer_instance

/-! ## Sample data -/

/-- A process in the UTC time zone, at 2021-03-01T12:00:00Z. -/
def envUTC : Env :=
  { objectIdIsValid := fun s => decide (s.length = 24)
    castObjectId := fun s => s
    otherDateParse := fun _ => none
    castOtherDate := fun _ => none
    now := 1614600000000
    localOffset := fun _ => 0
    limitNonInteger := fun _ docs => docs }

/-- The same process in the time zone of New York in winter, five hours behind UTC. -/
def envNewYork : Env :=
  { envUTC with localOffset := fun _ => -18000000 }

/-- The identifier of the sample user. -/
def aliceId : JSString := js "5fb5853f734231456ccb3b05"

/-- An identifier of the right form that no sample user has. -/
def nobodyId : JSString := js "000000000000000000000000"

/-- The sample user. -/
def alice : User := { _id := aliceId, username := js "alice_2021" }

/-- A sample exercise of the user `userId` on the day `day` of February 2021. -/
def februaryRun (userId : JSString) (day : Int) : Exercise :=
  { date := some ((18658 + day) * msPerDay), description := js "run", duration := .finite 30,
    userId := userId }

/-- A sample exercise of the user `userId` on the day `day` of March 2021. -/
def marchRun (userId : JSString) (day : Int) : Exercise :=
  { date := some ((18686 + day) * msPerDay), description := js "swim", duration := .finite 45,
    userId := userId }

/-- A store with one user and two exercises of that user, on 2021-02-28 and on 2021-03-01. -/
def storeMarch : State :=
  { users := [alice], exercises := [februaryRun aliceId 28, marchRun aliceId 1] }

/-- A store with one user only. -/
def storeEmpty : State := { users := [alice], exercises := [] }

/-- A store with one user, five exercises of that user and one exercise of nobody. -/
def storeFive : State :=
  { users := [alice]
    exercises := [februaryRun aliceId 1, februaryRun aliceId 5, februaryRun nobodyId 6,
      februaryRun aliceId 10, februaryRun aliceId 2, februaryRun aliceId 28] }

/-- The parameters of an exercise of the sample user on 2021-02-28. -/
def paramsFeb28 : ExerciseParams :=
  { date := some (js "2021-02-28"), description := some (js "run"), duration := .finite 30,
    userId := some aliceId }

/-! ## Lemmas on pattern matching -/

theorem regExpTest_assertStart (ts : List Term) (s : JSString) :
    regExpTest (.assertStart :: ts) s = matchHere ts 0 s := by
  unfold regExpTest
  rw [List.range_succ_eq_map, List.any_cons, List.any_map]
  have h : ((List.range s.length).any
      ((fun i => matchHere (.assertStart :: ts) i (List.drop i s)) ∘ Nat.succ)) = false := by
    rw [List.any_eq_false]
    intro i _
    simp [matchHere, termEnds]
  rw [h]
  simp [matchHere, termEnds]

theorem repEnds_exact (cls : CharClass) (n pos : Nat) (rest : List Nat) :
    repEnds cls n (some n) pos rest =
      if n ≤ rest.length ∧ (rest.take n).all cls.test = true then [(pos + n, rest.drop n)]
      else [] := by
  induction rest generalizing n pos with
  | nil =>
    cases n <;> simp [repEnds]
  | cons c cs ih =>
    cases n with
    | zero => simp [repEnds]
    | succ k =>
      simp only [repEnds]
      by_cases hc : cls.test c = true
      · have := ih k (pos + 1)
        simp [hc, this, Nat.add_assoc, Nat.add_comm 1 k]
      · simp [hc]

theorem matchHere_atom_exact (cls : CharClass) (n pos : Nat) (ts : List Term)
    (rest : List Nat) :
    matchHere (.atom cls n (some n) :: ts) pos rest =
      (decide (n ≤ rest.length) && (rest.take n).all cls.test &&
        matchHere ts (pos + n) (rest.drop n)) := by
  simp only [matchHere, termEnds, repEnds_exact]
  split <;> rename_i h
  · simp [h.1, h.2]
  · simp only [List.any_nil]
    by_cases h1 : n ≤ rest.length
    · have h2 : (rest.take n).all cls.test = false := by
        cases hh : (rest.take n).all cls.test
        · rfl
        · exact absurd ⟨h1, hh⟩ h
      simp [h2]
    · simp [h1]

theorem matchHere_assertEnd (pos : Nat) (rest : List Nat) :
    matchHere [.assertEnd] pos rest = rest.isEmpty := by
  cases rest <;> simp [matchHere, termEnds]

theorem repEnds_unbounded_end (cls : CharClass) (min pos : Nat) (rest : List Nat) :
    (repEnds cls min none pos rest).any (fun e => matchHere [.assertEnd] e.1 e.2) =
      (decide (min ≤ rest.length) && rest.all cls.test) := by
  induction rest generalizing min pos with
  | nil =>
    by_cases h : min = 0 <;> simp [repEnds, h, matchHere_assertEnd]
  | cons c cs ih =>
    simp only [repEnds, List.any_append]
    have h2 : (if min = 0 then [(pos, c :: cs)] else []).any
        (fun e => matchHere [.assertEnd] e.1 e.2) = false := by
      split <;> simp [matchHere_assertEnd]
    rw [h2, Bool.or_false]
    by_cases hc : cls.test c = true
    · simp only [hc, Bool.true_and, Option.map_none']
      have h3 : ((none : Option Nat) != some 0) = true := by decide
      simp only [h3, if_true, ih]
      have h4 : decide (min - 1 ≤ cs.length) = decide (min ≤ (c :: cs).length) := by
        simp only [List.length_cons, decide_eq_decide]; omega
      simp [h4, hc]
    · simp [hc]

/-- The date pattern accepts exactly the strings of the form YYYY-MM-DD. -/
theorem isDateValid_iff_matches (s : JSString) : isDateValid s = true ↔ MatchesYMD s := by
  unfold isDateValid patternValidDate MatchesYMD IsDigit
  rw [regExpTest_assertStart]
  simp only [matchHere_atom_exact, matchHere_assertEnd]
  rcases s with _ | ⟨a, _ | ⟨b, _ | ⟨c, _ | ⟨d, _ | ⟨e, _ | ⟨f, _ | ⟨g, _ | ⟨h, _ | ⟨i,
    _ | ⟨j, _ | ⟨k, l⟩⟩⟩⟩⟩⟩⟩⟩⟩⟩⟩
  all_goals simp [digitClass, dashClass, CharClass.test]
  constructor
  · rintro ⟨⟨ha, hb, hc, hd⟩, he, ⟨hf, hg⟩, hh, hi, hj⟩
    exact ⟨a, ha, b, hb, c, hc, d, hd, f, hf, g, hg, i, hi, j, hj, rfl, rfl, rfl, rfl,
      by omega, rfl, rfl, by omega, rfl, rfl⟩
  · rintro ⟨_, ha, _, hb, _, hc, _, hd, _, hf, _, hg, _, hi, _, hj,
      rfl, rfl, rfl, rfl, rfl, rfl, rfl, rfl, rfl, rfl⟩
    exact ⟨⟨ha, hb, hc, hd⟩, by omega, ⟨hf, hg⟩, by omega, hi, hj⟩

/-- A string of the form YYYY-MM-DD has ten code units. -/
theorem MatchesYMD.length_eq {s : JSString} (h : MatchesYMD s) : s.length = 10 := by
  obtain ⟨_, _, _, _, _, _, _, _, _, _, _, _, _, _, _, _, rfl⟩ := h
  rfl

/-- The date check of a field that can be `null`. -/
theorem optionalDate_iff (date : Option JSString) :
    (match date with
      | none => true
      | some d => isDateValid d) = true ↔
    (date = none ∨ ∃ d, date = some d ∧ MatchesYMD d) := by
  cases date with
  | none => simp
  | some d => simp [isDateValid_iff_matches]

/-- The check of the user identifier inside a validator. -/
theorem isUserIdValid_ok_true (userId : Option JSString) :
    isUserIdValid userId = .ok true ↔ ∃ u, userId = some u ∧ u.length = 24 := by
  cases userId with
  | none => simp [isUserIdValid]
  | some u =>
    by_cases h : u.length = 24 <;> simp [isUserIdValid, h]

/-! ## Properties of the validator -/

/-- C1: `areExerciseParamsValid` returns true if and only if the date is null or of the form
YYYY-MM-DD, the description is non-null and non-empty, the duration is not NaN and greater
than zero, and the userId has length exactly 24. -/
theorem areExerciseParamsValid_iff (p : ExerciseParams) :
    areExerciseParamsValid p = .ok true ↔
      (p.date = none ∨ ∃ d, p.date = some d ∧ MatchesYMD d) ∧
      (∃ s, p.description = some s ∧ 0 < s.length) ∧
      (p.duration ≠ .nan ∧ p.duration.IsPositive) ∧
      (∃ u, p.userId = some u ∧ u.length = 24) := by
  have hdate := optionalDate_iff p.date
  have hdesc : (match p.description with
      | none => false
      | some description => decide (description.length > 0)) = true ↔
      ∃ s, p.description = some s ∧ 0 < s.length := by
    cases p.description <;> simp
  have hdur : (isNumberValid p.duration && p.duration.gtZero) = true ↔
      (p.duration ≠ .nan ∧ p.duration.IsPositive) := by
    cases p.duration with
    | nan => simp [isNumberValid, JSNumber.isNaN, JSNumber.gtZero]
    | infinity negative =>
      cases negative <;>
        simp [isNumberValid, JSNumber.isNaN, JSNumber.gtZero, JSNumber.IsPositive]
    | finite q => simp [isNumberValid, JSNumber.isNaN, JSNumber.gtZero, JSNumber.IsPositive]
  rw [← hdate, ← hdesc, ← hdur]
  unfold areExerciseParamsValid
  cases hu : p.userId with
  | none => simp [isUserIdValid, bind, Except.bind]
  | some u =>
    by_cases h : u.length = 24
    · simp [isUserIdValid, bind, Except.bind, pure, Except.pure, h, and_assoc]
    · simp [isUserIdValid, bind, Except.bind, pure, Except.pure, h]

/-- C2: `areLogParamsValid` returns true if and only if dateFrom and dateTo are each null or of
the form YYYY-MM-DD, the limit is null or not NaN, and the userId has length exactly 24. The
sign of a finite limit and the order of the two dates play no part: a finite limit is
accepted like an absent one, the two dates can be exchanged, and a query from 2021-12-31 to
2021-01-01 with limit 0 or -5 is accepted. -/
theorem areLogParamsValid_iff :
    (∀ p : LogParams, areLogParamsValid p = .ok true ↔
      (p.dateFrom = none ∨ ∃ d, p.dateFrom = some d ∧ MatchesYMD d) ∧
      (p.dateTo = none ∨ ∃ d, p.dateTo = some d ∧ MatchesYMD d) ∧
      (p.limit = none ∨ ∃ n, p.limit = some n ∧ n ≠ .nan) ∧
      (∃ u, p.userId = some u ∧ u.length = 24)) ∧
    (∀ (dateFrom dateTo : Option JSString) (q : ℚ) (userId : Option JSString),
      areLogParamsValid
          { dateFrom := dateFrom, dateTo := dateTo, limit := some (.finite q),
            userId := userId } =
        areLogParamsValid
          { dateFrom := dateFrom, dateTo := dateTo, limit := none, userId := userId }) ∧
    (∀ (dateFrom dateTo : Option JSString) (limit : Option JSNumber)
        (userId : Option JSString),
      areLogParamsValid
          { dateFrom := dateFrom, dateTo := dateTo, limit := limit, userId := userId } =
        areLogParamsValid
          { dateFrom := dateTo, dateTo := dateFrom, limit := limit, userId := userId }) ∧
    areLogParamsValid
        { dateFrom := some (js "2021-12-31"), dateTo := some (js "2021-01-01"),
          limit := some (.finite 0), userId := some aliceId } = .ok true ∧
    areLogParamsValid
        { dateFrom := some (js "2021-12-31"), dateTo := some (js "2021-01-01"),
          limit := some (.finite (-5)), userId := some aliceId } = .ok true := by
  refine ⟨?_, ?_, ?_, ?_, ?_⟩
  · intro p
    have hfrom := optionalDate_iff p.dateFrom
    have hto := optionalDate_iff p.dateTo
    have hlim : (match p.limit with
        | none => true
        | some limit => isNumberValid limit) = true ↔
        (p.limit = none ∨ ∃ n, p.limit = some n ∧ n ≠ .nan) := by
      cases p.limit with
      | none => simp
      | some n => cases n <;> simp [isNumberValid, JSNumber.isNaN]
    rw [← hfrom, ← hto, ← hlim]
    unfold areLogParamsValid
    cases hu : p.userId with
    | none => simp [isUserIdValid, bind, Except.bind]
    | some u =>
      by_cases h : u.length = 24
      · simp [isUserIdValid, bind, Except.bind, pure, Except.pure, h, and_assoc]
      · simp [isUserIdValid, bind, Except.bind, pure, Except.pure, h]
  · intro dateFrom dateTo q userId
    simp [areLogParamsValid, isNumberValid, JSNumber.isNaN]
  · intro dateFrom dateTo limit userId
    cases userId with
    | none => simp [areLogParamsValid, isUserIdValid, bind, Except.bind]
    | some u =>
      simp only [areLogParamsValid, isUserIdValid, bind, Except.bind, pure, Except.pure]
      congr 1
      cases (match dateFrom with
        | none => true
        | some d => isDateValid d) <;>
      cases (match dateTo with
        | none => true
        | some d => isDateValid d) <;> rfl
  · rfl
  · rfl

/-- C3: `isDateValid` accepts exactly the strings made of four ASCII digits, `-`, two ASCII
digits, `-` and two ASCII digits, ten code units in all: 2021-02-28 and 9999-99-99 are
accepted, 2021-2-28 is rejected, and a string with one more code unit before or after an
accepted one (a newline for instance) is rejected. -/
theorem isDateValid_spec :
    (∀ s : JSString, isDateValid s = true ↔ MatchesYMD s) ∧
    (∀ s : JSString, isDateValid s = true ↔
      s.length = 10 ∧ s.get? 4 = some 45 ∧ s.get? 7 = some 45 ∧
        ∀ i < 10, i ≠ 4 → i ≠ 7 → ∃ c, s.get? i = some c ∧ IsDigit c) ∧
    isDateValid (js "2021-02-28") = true ∧
    isDateValid (js "9999-99-99") = true ∧
    isDateValid (js "2021-2-28") = false ∧
    isDateValid (js "2021-02-28\n") = false ∧
    isDateValid (js " 2021-02-28") = false ∧
    (∀ (s : JSString) (c : Nat),
      (isDateValid s && isDateValid (c :: s)) = false ∧
      (isDateValid s && isDateValid (s ++ [c])) = false) := by
  refine ⟨isDateValid_iff_matches, ?_, by decide, by decide, by decide, by decide, by decide, ?_⟩
  · intro s
    rw [isDateValid_iff_matches]
    constructor
    · rintro ⟨a, b, c, d, e, f, g, h, ha, hb, hc, hd, he, hf, hg, hh, rfl⟩
      refine ⟨rfl, rfl, rfl, ?_⟩
      intro i hi h4 h7
      have : i = 0 ∨ i = 1 ∨ i = 2 ∨ i = 3 ∨ i = 5 ∨ i = 6 ∨ i = 8 ∨ i = 9 := by omega
      rcases this with rfl | rfl | rfl | rfl | rfl | rfl | rfl | rfl
      · exact ⟨_, rfl, ha⟩
      · exact ⟨_, rfl, hb⟩
      · exact ⟨_, rfl, hc⟩
      · exact ⟨_, rfl, hd⟩
      · exact ⟨_, rfl, he⟩
      · exact ⟨_, rfl, hf⟩
      · exact ⟨_, rfl, hg⟩
      · exact ⟨_, rfl, hh⟩
    · rintro ⟨hlen, h4, h7, hdig⟩
      rcases s with _ | ⟨a, _ | ⟨b, _ | ⟨c, _ | ⟨d, _ | ⟨e, _ | ⟨f, _ | ⟨g, _ | ⟨h, _ | ⟨i,
        _ | ⟨j, _ | ⟨k, l⟩⟩⟩⟩⟩⟩⟩⟩⟩⟩⟩ <;> simp at hlen
      simp at h4 h7
      subst h4 h7
      obtain ⟨_, h0, ha⟩ := hdig 0 (by omega) (by omega) (by omega)
      obtain ⟨_, h1, hb⟩ := hdig 1 (by omega) (by omega) (by omega)
      obtain ⟨_, h2, hc⟩ := hdig 2 (by omega) (by omega) (by omega)
      obtain ⟨_, h3, hd⟩ := hdig 3 (by omega) (by omega) (by omega)
      obtain ⟨_, h5, hf⟩ := hdig 5 (by omega) (by omega) (by omega)
      obtain ⟨_, h6, hg⟩ := hdig 6 (by omega) (by omega) (by omega)
      obtain ⟨_, h8, hi⟩ := hdig 8 (by omega) (by omega) (by omega)
      obtain ⟨_, h9, hj⟩ := hdig 9 (by omega) (by omega) (by omega)
      simp at h0 h1 h2 h3 h5 h6 h8 h9
      subst h0 h1 h2 h3 h5 h6 h8 h9
      exact ⟨_, _, _, _, _, _, _, _, ha, hb, hc, hd, hf, hg, hi, hj, rfl⟩
  · intro s c
    constructor
    · cases h1 : isDateValid s
      · rfl
      · cases h2 : isDateValid (c :: s)
        · rfl
        · have l1 := ((isDateValid_iff_matches s).1 h1).length_eq
          have l2 := ((isDateValid_iff_matches _).1 h2).length_eq
          simp at l2
          omega
    · cases h1 : isDateValid s
      · rfl
      · cases h2 : isDateValid (s ++ [c])
        · rfl
        · have l1 := ((isDateValid_iff_matches s).1 h1).length_eq
          have l2 := ((isDateValid_iff_matches _).1 h2).length_eq
          simp at l2
          omega

/-- C4: `isUsernameValid` accepts exactly the strings of at least 8 code units that are all
ASCII letters, ASCII digits, `_`, `.` or `-`: `valid_user.1` is accepted, `ab` and
`bad user!` are rejected. -/
theorem isUsernameValid_spec :
    (∀ s : JSString,
      isUsernameValid s = true ↔ 8 ≤ s.length ∧ ∀ c ∈ s, IsUsernameChar c) ∧
    isUsernameValid (js "valid_user.1") = true ∧
    isUsernameValid (js "ab") = false ∧
    isUsernameValid (js "bad user!") = false := by
  refine ⟨?_, by decide, by decide, by decide⟩
  intro s
  unfold isUsernameValid patternValidCharacters
  rw [regExpTest_assertStart, matchHere, termEnds, repEnds_unbounded_end]
  simp only [Bool.and_eq_true, decide_eq_true_eq, List.all_eq_true]
  refine and_congr Iff.rfl (forall_congr' fun c => imp_congr Iff.rfl ?_)
  simp only [CharClass.test, IsUsernameChar, IsDigit, List.any_cons, List.any_nil,
    Bool.or_false, Bool.or_eq_true, Bool.and_eq_true, decide_eq_true_eq]
  omega

/-- C5 (the code departs from it): with a userId that is null or undefined, both validators
throw a `TypeError` instead of returning false, whatever the other parameters are. -/
theorem validators_throw_without_userId :
    (∀ (dateFrom dateTo : Option JSString) (limit : Option JSNumber),
      areLogParamsValid
        { dateFrom := dateFrom, dateTo := dateTo, limit := limit, userId := none } =
        .error .typeError) ∧
    (∀ (date description : Option JSString) (duration : JSNumber),
      areExerciseParamsValid
        { date := date, description := description, duration := duration, userId := none } =
        .error .typeError) := by
  constructor
  · intro dateFrom dateTo limit
    rfl
  · intro date description duration
    rfl

/-! ## Lemmas on dates -/

/-- The calendar algorithm of the runtime agrees with the day count of the specification. -/
theorem daysFromCivil_eq (y : Int) (m : Nat) (d : Int) (hm : 1 ≤ m) (hm2 : m ≤ 12) :
    daysFromCivil y m d = dayFromYear y + daysBeforeMonth y m + (d - 1) := by
  have hcases : m = 1 ∨ m = 2 ∨ m = 3 ∨ m = 4 ∨ m = 5 ∨ m = 6 ∨ m = 7 ∨ m = 8 ∨ m = 9 ∨
      m = 10 ∨ m = 11 ∨ m = 12 := by omega
  unfold daysFromCivil dayFromYear daysBeforeMonth
  rcases hcases with rfl | rfl | rfl | rfl | rfl | rfl | rfl | rfl | rfl | rfl | rfl | rfl <;>
    simp [List.range_succ, daysInMonth, IsLeapYear] <;> (try split_ifs) <;> omega

/-- A written calendar date has the form YYYY-MM-DD. -/
theorem CalendarDate.iso_matches (c : CalendarDate) : MatchesYMD c.iso :=
  ⟨_, _, _, _, _, _, _, _, ⟨by omega, by omega⟩, ⟨by omega, by omega⟩, ⟨by omega, by omega⟩,
    ⟨by omega, by omega⟩, ⟨by omega, by omega⟩, ⟨by omega, by omega⟩, ⟨by omega, by omega⟩,
    ⟨by omega, by omega⟩, rfl⟩

/-- The length of a month is at most 31 days. -/
theorem daysInMonth_le (y : Int) (m : Nat) : daysInMonth y m ≤ 31 := by
  unfold daysInMonth
  split_ifs <;> omega

/-- The runtime reads a real calendar date as midnight UTC of that day. -/
theorem dateParse_iso (env : Env) (c : CalendarDate) (h : c.IsReal) :
    dateParse env c.iso = some c.utcMidnight := by
  obtain ⟨hy, hm1, hm2, hd1, hd2⟩ := h
  have hd3 := daysInMonth_le c.year c.month
  have hvalid : isDateValid c.iso = true := (isDateValid_iff_matches _).2 c.iso_matches
  have hyear : digitsValue (c.iso.take 4) = c.year := by
    simp only [CalendarDate.iso, List.take, digitsValue, List.foldl]
    omega
  have hmonth : digitsValue ((c.iso.drop 5).take 2) = c.month := by
    simp only [CalendarDate.iso, List.take, List.drop, digitsValue, List.foldl]
    omega
  have hday : digitsValue ((c.iso.drop 8).take 2) = c.day := by
    simp only [CalendarDate.iso, List.take, List.drop, digitsValue, List.foldl]
    omega
  unfold dateParse
  rw [if_pos hvalid]
  simp only [hyear, hmonth, hday]
  rw [if_pos (by omega)]
  rw [daysFromCivil_eq _ _ _ hm1 hm2]
  rfl

/-- The store casts a bound that is absent or a real calendar date to that date. -/
theorem castBound_iso (env : Env) (bound : Option CalendarDate) (h : ∀ c ∈ bound, c.IsReal) :
    castBound env (bound.map CalendarDate.iso) =
      .ok (bound.map (fun c => some c.utcMidnight)) := by
  cases bound with
  | none => rfl
  | some c =>
    have hp := dateParse_iso env c (h c rfl)
    have hv : isDateValid c.iso = true := (isDateValid_iff_matches _).2 c.iso_matches
    have hne : c.iso.isEmpty = false := rfl
    simp only [Option.map_some', castBound, castDate, hne, hv, hp, if_true, Except.map]
    rfl

/-! ## Properties of the data access -/

/-- The filter of the log, with bounds cast from calendar dates, selects the records that the
specification describes. -/
theorem paramsQuery_iff (userId : JSString) (dateFrom dateTo : Option CalendarDate)
    (e : Exercise) :
    paramsQuery userId (dateFrom.map (fun c => some c.utcMidnight))
        (dateTo.map (fun c => some c.utcMidnight)) e = true ↔
      LogSelects userId dateFrom dateTo e := by
  unfold paramsQuery LogSelects
  cases dateFrom <;> cases dateTo <;> cases e.date <;> simp [boundHolds, and_assoc]

/-- The records that the store finds for a query between two real calendar dates. -/
theorem filter_paramsQuery (st : State) (userId : JSString)
    (dateFrom dateTo : Option CalendarDate) :
    st.exercises.filter (paramsQuery userId (dateFrom.map (fun c => some c.utcMidnight))
        (dateTo.map (fun c => some c.utcMidnight))) =
      st.exercises.filter (fun e => decide (LogSelects userId dateFrom dateTo e)) := by
  apply List.filter_congr
  intro e _
  rw [Bool.eq_iff_iff, paramsQuery_iff, decide_eq_true_iff]

/-- The log of an existing user, once the bounds of the date filter are cast. -/
theorem log_eq (env : Env) (st : State) (p : LogParams) (userId : JSString) (user : User)
    (gte lte : Option (Option Int))
    (hid : p.userId = some userId) (hvalid : env.objectIdIsValid userId = true)
    (huser : (usersGet env st userId).head? = some user)
    (hfrom : castBound env p.dateFrom = .ok gte) (hto : castBound env p.dateTo = .ok lte)
    (exercises : List Exercise)
    (hlimit : (match p.limit with
      | none => st.exercises.filter (paramsQuery userId gte lte)
      | some limit =>
        if limit.gtZero then
          queryLimit env limit (st.exercises.filter (paramsQuery userId gte lte))
        else st.exercises.filter (paramsQuery userId gte lte)) = exercises) :
    log env st p =
      .ok { _id := user._id
            count := exercises.length
            log := exercises.map (fun e =>
              { date := formatDate env e.date, description := e.description,
                duration := e.duration })
            username := user.username } := by
  unfold log
  simp only [hid, hvalid, if_true, huser, hfrom, hto, bind, Except.bind, pure, Except.pure,
    hlimit]

/-- The count of a returned log is the length of that log. -/
theorem log_count (env : Env) (st : State) (p : LogParams) (r : LogResult)
    (h : log env st p = .ok r) : r.count = r.log.length := by
  unfold log at h
  cases hu : p.userId with
  | none => simp [hu] at h
  | some userId =>
    simp only [hu] at h
    split_ifs at h
    cases hh : (usersGet env st userId).head? with
    | none => simp [hh] at h
    | some user =>
      simp only [hh] at h
      cases hf : castBound env p.dateFrom with
      | error e => simp [hf, bind, Except.bind] at h
      | ok gte =>
        cases ht : castBound env p.dateTo with
        | error e => simp [hf, ht, bind, Except.bind] at h
        | ok lte =>
          simp only [hf, ht, bind, Except.bind, pure, Except.pure, Except.ok.injEq] at h
          subst h
          simp

/-- C6: when the userId of the parameters does not resolve to an existing user (it is absent,
it is not a valid store identifier, or no user has it), `create` fails with USER_NOT_FOUND and
the store, users and exercises, is unchanged. -/
theorem create_userNotFound (env : Env) (st : State) (p : ExerciseParams)
    (h : ∀ userId, p.userId = some userId →
      env.objectIdIsValid userId = false ∨ usersGet env st userId = []) :
    create env st p = (.error .userNotFound, st) := by
  unfold create
  cases hu : p.userId with
  | none => rfl
  | some userId =>
    rcases h userId hu with hv | hn
    · simp [hv]
    · simp [hn]

/-- Witness of C6: in a store whose only user is the sample user, an exercise for another
identifier of the right form is refused and nothing is stored. -/
theorem create_userNotFound_witness :
    (∀ userId, ({ paramsFeb28 with userId := some nobodyId } : ExerciseParams).userId =
        some userId →
      envUTC.objectIdIsValid userId = false ∨ usersGet envUTC storeFive userId = []) ∧
    create envUTC storeFive { paramsFeb28 with userId := some nobodyId } =
      (.error .userNotFound, storeFive) :=
  have h : ∀ userId, ({ paramsFeb28 with userId := some nobodyId } : ExerciseParams).userId =
        some userId →
      envUTC.objectIdIsValid userId = false ∨ usersGet envUTC storeFive userId = [] := by
    intro userId hu
    cases hu
    exact Or.inr (by decide)
  ⟨h, create_userNotFound envUTC storeFive _ h⟩

/-- Counterexample of C7: the query of the sample user from 2021-13-99 with limit 3 passes
validation, the user exists, and `log` returns no records: it throws a `CastError`. -/
theorem log_limit_counterexample :
    areLogParamsValid
        { dateFrom := some (js "2021-13-99"), dateTo := none, limit := some (.finite 3),
          userId := some aliceId } = .ok true ∧
    (usersGet envUTC storeFive aliceId).head? = some alice ∧
    log envUTC storeFive
        { dateFrom := some (js "2021-13-99"), dateTo := none, limit := some (.finite 3),
          userId := some aliceId } = .error .castError :=
  ⟨rfl, rfl, rfl⟩

/-- C7 (amended): for an existing user and a query whose date bounds, where present, are real
calendar dates written YYYY-MM-DD, a limit that is a positive integer `k` gives the first
`min k m` of the `m` matching records in storage order; an absent, zero, negative or NaN limit
gives all the matching records in storage order; and the count of any returned log is the
length of that log. -/
theorem log_limit (env : Env) (st : State) (userId : JSString) (user : User)
    (dateFrom dateTo : Option CalendarDate) (limit : Option JSNumber)
    (hfrom : ∀ c ∈ dateFrom, c.IsReal) (hto : ∀ c ∈ dateTo, c.IsReal)
    (hvalid : env.objectIdIsValid userId = true)
    (huser : (usersGet env st userId).head? = some user) :
    (∀ k : Nat, 0 < k → limit = some (.finite (k : ℚ)) →
      log env st
          { dateFrom := dateFrom.map CalendarDate.iso, dateTo := dateTo.map CalendarDate.iso,
            limit := limit, userId := some userId } =
        .ok { _id := user._id
              count := min k
                (st.exercises.filter
                  (fun e => decide (LogSelects userId dateFrom dateTo e))).length
              log := ((st.exercises.filter
                  (fun e => decide (LogSelects userId dateFrom dateTo e))).take k).map
                (fun e => { date := formatDate env e.date, description := e.description,
                            duration := e.duration })
              username := user.username }) ∧
    ((limit = none ∨ limit = some .nan ∨ limit = some (.infinity true) ∨
        ∃ q : ℚ, q ≤ 0 ∧ limit = some (.finite q)) →
      log env st
          { dateFrom := dateFrom.map CalendarDate.iso, dateTo := dateTo.map CalendarDate.iso,
            limit := limit, userId := some userId } =
        .ok { _id := user._id
              count := (st.exercises.filter
                (fun e => decide (LogSelects userId dateFrom dateTo e))).length
              log := (st.exercises.filter
                  (fun e => decide (LogSelects userId dateFrom dateTo e))).map
                (fun e => { date := formatDate env e.date, description := e.description,
                            duration := e.duration })
              username := user.username }) ∧
    (∀ (p : LogParams) (r : LogResult), log env st p = .ok r → r.count = r.log.length) := by
  have hf := castBound_iso env dateFrom hfrom
  have ht := castBound_iso env dateTo hto
  have hfilter := filter_paramsQuery st userId dateFrom dateTo
  refine ⟨?_, ?_, fun p r h => log_count env st p r h⟩
  · intro k hk hl
    have := log_eq env st
      { dateFrom := dateFrom.map CalendarDate.iso, dateTo := dateTo.map CalendarDate.iso,
        limit := limit, userId := some userId }
      userId user _ _ rfl hvalid huser hf ht
      ((st.exercises.filter (fun e => decide (LogSelects userId dateFrom dateTo e))).take k)
      (by simp [hl, JSNumber.gtZero, queryLimit, hk, hfilter])
    rw [this, List.length_take]
  · intro hl
    refine log_eq env st _ userId user _ _ rfl hvalid huser hf ht _ ?_
    rcases hl with hl | hl | hl | ⟨q, hq, hl⟩
    · simp [hl, hfilter]
    · simp [hl, JSNumber.gtZero, hfilter]
    · simp [hl, JSNumber.gtZero, hfilter]
    · simp [hl, JSNumber.gtZero, not_lt.mpr hq, hfilter]

/-- Witness of C7: the sample user has five exercises in February 2021; from 2021-02-01 to
2021-02-28 with limit 3 the log has count 3 and the first three of them in storage order,
those of the 1st, the 5th and the 10th. -/
theorem log_limit_witness :
    (∀ c ∈ some (CalendarDate.mk 2021 2 1), c.IsReal) ∧
    (∀ c ∈ some (CalendarDate.mk 2021 2 28), c.IsReal) ∧
    envUTC.objectIdIsValid aliceId = true ∧
    (usersGet envUTC storeFive aliceId).head? = some alice ∧
    log envUTC storeFive
        { dateFrom := some (js "2021-02-01"), dateTo := some (js "2021-02-28"),
          limit := some (.finite 3), userId := some aliceId } =
      .ok { _id := aliceId
            count := 3
            log := [{ date := js "Mon Feb 01 2021", description := js "run",
                      duration := .finite 30 },
                    { date := js "Fri Feb 05 2021", description := js "run",
                      duration := .finite 30 },
                    { date := js "Wed Feb 10 2021", description := js "run",
                      duration := .finite 30 }]
            username := js "alice_2021" } :=
  ⟨by decide, by decide, by decide, by decide,
   ((log_limit envUTC storeFive aliceId alice (some (CalendarDate.mk 2021 2 1))
      (some (CalendarDate.mk 2021 2 28)) (some (.finite ((3 : Nat) : ℚ)))
      (by decide) (by decide) (by decide) (by decide)).1 3 (by decide) rfl).trans (by rfl)⟩

/-- Counterexample of C8: the query of the sample user up to 2021-02-30, without a limit,
passes validation, and its log holds the exercise of 2021-03-01, which is after every day of
February: the store reads the bound as 2021-03-02. -/
theorem log_filter_counterexample :
    areLogParamsValid
        { dateFrom := none, dateTo := some (js "2021-02-30"), limit := none,
          userId := some aliceId } = .ok true ∧
    storeMarch.exercises =
      [{ date := some (CalendarDate.utcMidnight (CalendarDate.mk 2021 2 28)),
         description := js "run", duration := .finite 30, userId := aliceId },
       { date := some (CalendarDate.utcMidnight (CalendarDate.mk 2021 3 1)),
         description := js "swim", duration := .finite 45, userId := aliceId }] ∧
    js "2021-02-30" < CalendarDate.iso (CalendarDate.mk 2021 3 1) ∧
    log envUTC storeMarch
        { dateFrom := none, dateTo := some (js "2021-02-30"), limit := none,
          userId := some aliceId } =
      .ok { _id := aliceId
            count := 2
            log := [{ date := js "Sun Feb 28 2021", description := js "run",
                      duration := .finite 30 },
                    { date := js "Mon Mar 01 2021", description := js "swim",
                      duration := .finite 45 }]
            username := js "alice_2021" } :=
  ⟨rfl, by decide, by decide, rfl⟩

/-- C8 (amended): for an existing user and a query without a limit whose date bounds, where
present, are real calendar dates written YYYY-MM-DD, the log is made, in storage order, of
exactly the stored exercises of that user whose date is not before midnight UTC of dateFrom
and not after midnight UTC of dateTo, for each bound that is present. -/
theorem log_filter (env : Env) (st : State) (userId : JSString) (user : User)
    (dateFrom dateTo : Option CalendarDate)
    (hfrom : ∀ c ∈ dateFrom, c.IsReal) (hto : ∀ c ∈ dateTo, c.IsReal)
    (hvalid : env.objectIdIsValid userId = true)
    (huser : (usersGet env st userId).head? = some user) :
    ∃ found : List Exercise,
      log env st
          { dateFrom := dateFrom.map CalendarDate.iso, dateTo := dateTo.map CalendarDate.iso,
            limit := none, userId := some userId } =
        .ok { _id := user._id
              count := found.length
              log := found.map (fun e =>
                { date := formatDate env e.date, description := e.description,
                  duration := e.duration })
              username := user.username } ∧
      found = st.exercises.filter (fun e => decide (LogSelects userId dateFrom dateTo e)) ∧
      ∀ e, e ∈ found ↔
        e ∈ st.exercises ∧ e.userId = userId ∧
          (∀ c ∈ dateFrom, ∃ d ∈ e.date, c.utcMidnight ≤ d) ∧
          (∀ c ∈ dateTo, ∃ d ∈ e.date, d ≤ c.utcMidnight) := by
  have hf := castBound_iso env dateFrom hfrom
  have ht := castBound_iso env dateTo hto
  have hfilter := filter_paramsQuery st userId dateFrom dateTo
  refine ⟨st.exercises.filter (fun e => decide (LogSelects userId dateFrom dateTo e)),
    ?_, rfl, ?_⟩
  · rw [← hfilter]
    exact log_eq env st _ userId user _ _ rfl hvalid huser hf ht _ rfl
  · intro e
    simp only [List.mem_filter, decide_eq_true_eq, LogSelects]

/-- Witness of C8: the log of the sample user from 2021-02-02 to 2021-02-10 holds the
exercises of the 5th, the 10th and the 2nd, both bounds included, and not the exercise that
somebody else has on the 6th. -/
theorem log_filter_witness :
    (∀ c ∈ some (CalendarDate.mk 2021 2 2), c.IsReal) ∧
    (∀ c ∈ some (CalendarDate.mk 2021 2 10), c.IsReal) ∧
    envUTC.objectIdIsValid aliceId = true ∧
    (usersGet envUTC storeFive aliceId).head? = some alice ∧
    CalendarDate.iso (CalendarDate.mk 2021 2 2) = js "2021-02-02" ∧
    CalendarDate.iso (CalendarDate.mk 2021 2 10) = js "2021-02-10" ∧
    ∃ found : List Exercise,
      log envUTC storeFive
          { dateFrom := (some (CalendarDate.mk 2021 2 2)).map CalendarDate.iso
            dateTo := (some (CalendarDate.mk 2021 2 10)).map CalendarDate.iso
            limit := none, userId := some aliceId } =
        .ok { _id := alice._id
              count := found.length
              log := found.map (fun e =>
                { date := formatDate envUTC e.date, description := e.description,
                  duration := e.duration })
              username := alice.username } ∧
      found = [februaryRun aliceId 5, februaryRun aliceId 10, februaryRun aliceId 2] ∧
      found.map (fun e => formatDate envUTC e.date) =
        [js "Fri Feb 05 2021", js "Wed Feb 10 2021", js "Tue Feb 02 2021"] := by
  obtain ⟨found, hlog, hfound, _⟩ :=
    log_filter envUTC storeFive aliceId alice (some (CalendarDate.mk 2021 2 2))
      (some (CalendarDate.mk 2021 2 10)) (by decide) (by decide) (by decide) (by decide)
  have hlist : found =
      [februaryRun aliceId 5, februaryRun aliceId 10, februaryRun aliceId 2] :=
    hfound.trans (by decide)
  refine ⟨by decide, by decide, by decide, by decide, by decide, by decide, found, hlog,
    hlist, ?_⟩
  rw [hlist]
  decide

/-! ## Dates: normalisation and rendering -/

/-- C9 (the code departs from it): the exercise of 2021-02-28 passes validation; in a process
five hours behind UTC, `create` returns it, and `log` then lists it, with the date rendered
`Sat Feb 27 2021`, the day before. In a process in UTC the rendering is `Sun Feb 28 2021`. -/
theorem roundTrip_depends_on_time_zone :
    areExerciseParamsValid paramsFeb28 = .ok true ∧
    (create envNewYork storeEmpty paramsFeb28).1 =
      .ok { _id := aliceId, date := js "Sat Feb 27 2021", description := js "run",
            duration := .finite 30, username := js "alice_2021" } ∧
    log envNewYork (create envNewYork storeEmpty paramsFeb28).2
        { dateFrom := none, dateTo := none, limit := none, userId := some aliceId } =
      .ok { _id := aliceId, count := 1,
            log := [{ date := js "Sat Feb 27 2021", description := js "run",
                      duration := .finite 30 }],
            username := js "alice_2021" } ∧
    (create envUTC storeEmpty paramsFeb28).1 =
      .ok { _id := aliceId, date := js "Sun Feb 28 2021", description := js "run",
            duration := .finite 30, username := js "alice_2021" } ∧
    log envUTC (create envUTC storeEmpty paramsFeb28).2
        { dateFrom := none, dateTo := none, limit := none, userId := some aliceId } =
      .ok { _id := aliceId, count := 1,
            log := [{ date := js "Sun Feb 28 2021", description := js "run",
                      duration := .finite 30 }],
            username := js "alice_2021" } :=
  ⟨rfl, rfl, rfl, rfl, rfl⟩

/-- C10 (the code departs from it): the date 2021-13-99 passes validation, and `prepareDate`
throws a `RangeError` on it, so that `create` fails and stores nothing; on 2021-02-30, which
passes validation too, `prepareDate` returns 2021-03-02, another date than the supplied
one. -/
theorem prepareDate_impossible_date :
    areExerciseParamsValid { paramsFeb28 with date := some (js "2021-13-99") } = .ok true ∧
    (∀ env : Env, prepareDate env (some (js "2021-13-99")) = .error .rangeError) ∧
    create envUTC storeEmpty { paramsFeb28 with date := some (js "2021-13-99") } =
      (.error .rangeError, storeEmpty) ∧
    areExerciseParamsValid { paramsFeb28 with date := some (js "2021-02-30") } = .ok true ∧
    (∀ env : Env, prepareDate env (some (js "2021-02-30")) = .ok (js "2021-03-02")) :=
  ⟨rfl, fun _ => rfl, rfl, rfl, fun _ => rfl⟩

end ExerciseTracker
